import Mathlib

/-!
Shallow embedding of the pruning service in
`src/packages/bitcore-node/src/services/pruning.ts`.

Transactions and coins are modelled as records over `String` and `Int`
(Mongo heights and timestamps are machine numbers far below any overflow
boundary, so `Int` is exact). The store is a pair of record lists; Mongo
`deleteMany` / `updateMany` become list `filter` / `map` with the same
filter documents. The external multi-hop expansion primitive
`yieldRelatedOutputs` (in `../models/transaction`, outside this snapshot)
is treated as an oracle `Store → String → List CoinRecord` producing the
lazily yielded coin sequence; the closure-walk loop (pruning.ts lines
122-137 / 170-185) is embedded over that sequence, and theorems quantify
over every possible oracle.
-/

/-- Modelled from the spec: the source imports `SpentHeightIndicators` from
`../types/Coin`, which is not in this repository snapshot. The spec's data
model lists the sentinel heights as negative markers distinct from any
confirmed (non-negative) height; the code queries mempool transactions with
`blockHeight: -1` and invalid transactions with `blockHeight: -3`, fixing
pending = -1 and conflicting = -3, and `unspent` is a further distinct
negative sentinel, taken as -2. -/
def SpentHeightIndicators.conflicting : Int := -3

/-- Modelled from the spec: the `unspent` sentinel of `SpentHeightIndicators`
(see `SpentHeightIndicators.conflicting`), a negative marker distinct from
pending (-1) and conflicting (-3). -/
def SpentHeightIndicators.unspent : Int := -2

/-- pruning.ts line 23. -/
def ONE_MIN : Int := 1000 * 60

/-- pruning.ts line 24. -/
def ONE_HOUR : Int := 60 * ONE_MIN

/-- pruning.ts line 25. -/
def ONE_DAY : Int := 24 * ONE_HOUR

/-- A transaction record, with the fields the pruning service reads. -/
structure TxRecord where
  chain : String
  network : String
  txid : String
  blockHeight : Int
  blockTimeNormalized : Int
  deriving DecidableEq

/-- A coin record, with the fields the pruning service reads. -/
structure CoinRecord where
  chain : String
  network : String
  mintTxid : String
  mintHeight : Int
  spentTxid : Option String
  spentHeight : Int
  deriving DecidableEq

/-- The externally owned store: the transaction and coin collections. -/
structure Store where
  transactions : List TxRecord
  coins : List CoinRecord
  deriving DecidableEq

/-- JS `Set.add` on an insertion-ordered list: append iff not yet present
(models `spentTxids.add(...)`, pruning.ts lines 133 and 136, together with
`Array.from`, line 137). -/
def addUnique (l : List String) (x : String) : List String :=
  if x ∈ l then l else l ++ [x]

/-- Outcome of the closure-walk loop over the yielded coin sequence. -/
inductive WalkResult where
  | ok (txids : List String)
  | dataIntegrity (mintTxid : String)
  | tooLarge
  deriving DecidableEq

/-- Record a yielded coin's `spentTxid`, if it has one (pruning.ts lines
132-134 / 180-182). -/
def collectSpent (acc : List String) (c : CoinRecord) : List String :=
  match c.spentTxid with
  | some x => addUnique acc x
  | none => acc

/-- The `for await (const coin of outputGenerator)` loop body, pruning.ts
lines 124-135 (identical at lines 172-183): abort on a confirmed
(non-negative) mint or spent height, count the coin and abort past 50,
otherwise record its `spentTxid` if present. -/
def walkLoop : List CoinRecord → List String → Nat → WalkResult
  | [], acc, _ => WalkResult.ok acc
  | coin :: rest, acc, count =>
    if 0 ≤ coin.mintHeight ∨ 0 ≤ coin.spentHeight then
      WalkResult.dataIntegrity coin.mintTxid
    else if count + 1 > 50 then
      WalkResult.tooLarge
    else
      walkLoop rest (collectSpent acc coin) (count + 1)

/-- Full closure computation for one seed: run the loop on the yielded coins
and finally add the seed txid itself (`spentTxids.add(tx.txid)`, lines
136 / 184). -/
def computeAffectedSet (seedTxid : String) (coins : List CoinRecord) : WalkResult :=
  match walkLoop coins [] 0 with
  | WalkResult.ok acc => WalkResult.ok (addUnique acc seedTxid)
  | r => r

/-- The failure kinds a candidate or run can produce (spec section 7). -/
inductive PruneError where
  | dataIntegrity (mintTxid : String)
  | closureTooLarge (txid : String)
  | stopping
  | configuration
  deriving DecidableEq

/-- Mongo `deleteMany` on the two collections, pruning.ts lines 221-230:
scoped by chain, network, txid membership and the mempool sentinel height.
With `dryRun` set it logs and returns without mutating (lines 222-225). -/
def removeOldMempool (dryRun : Bool) (chain network : String) (txids : List String)
    (s : Store) : Store :=
  if dryRun then s
  else
    { transactions := s.transactions.filter fun t =>
        !(decide (t.chain = chain ∧ t.network = network ∧ t.txid ∈ txids ∧ t.blockHeight = -1)),
      coins := s.coins.filter fun c =>
        !(decide (c.chain = chain ∧ c.network = network ∧ c.mintTxid ∈ txids ∧ c.mintHeight = -1)) }

/-- First `updateMany` of `clearInvalid` (pruning.ts lines 204-207): set every
transaction whose txid is in the set to the conflicting sentinel. The filter
document has no chain or network field. -/
def setConflictingTx (txids : List String) (t : TxRecord) : TxRecord :=
  if t.txid ∈ txids then { t with blockHeight := SpentHeightIndicators.conflicting } else t

/-- Second `updateMany` of `clearInvalid` (lines 209-212): reset every coin
spent by a txid in the set back to unspent. -/
def resetSpentCoin (txids : List String) (c : CoinRecord) : CoinRecord :=
  match c.spentTxid with
  | some x => if x ∈ txids then { c with spentHeight := SpentHeightIndicators.unspent } else c
  | none => c

/-- Third `updateMany` of `clearInvalid` (lines 214-217): set every coin
minted by a txid in the set to the conflicting sentinel. -/
def setConflictingMint (txids : List String) (c : CoinRecord) : CoinRecord :=
  if c.mintTxid ∈ txids then { c with mintHeight := SpentHeightIndicators.conflicting } else c

/-- `clearInvalid`, pruning.ts lines 197-219: with `dryRun` set it logs and
returns without mutating; otherwise the three `updateMany` calls. The two
coin updates touch disjoint fields, so their composition order is
irrelevant (proved below). -/
def clearInvalid (dryRun : Bool) (invalidTxids : List String) (s : Store) : Store :=
  if dryRun then s
  else
    { transactions := s.transactions.map (setConflictingTx invalidTxids),
      coins := s.coins.map fun c => setConflictingMint invalidTxids (resetSpentCoin invalidTxids c) }

/-- One candidate's step of the stream pipeline (pruning.ts lines 119-140 /
167-188): compute the affected set from the yielded coins, then hand
exactly that deduplicated txid list to the cascade; on a walk failure the
store is untouched. -/
def processCandidate (cascade : List String → Store → Store) (txid : String)
    (coins : List CoinRecord) (s : Store) : Store × Option PruneError :=
  match computeAffectedSet txid coins with
  | WalkResult.ok txids => (cascade txids s, none)
  | WalkResult.dataIntegrity m => (s, some (PruneError.dataIntegrity m))
  | WalkResult.tooLarge => (s, some (PruneError.closureTooLarge txid))

/-- The candidate query filter of `processOldMempoolTxs` (pruning.ts lines
102-107 and 111): mempool sentinel height and block time older than the
cutoff, scoped to chain and network. -/
def candidateFilter (chain network : String) (oldTime : Int) (t : TxRecord) : Bool :=
  decide (t.chain = chain ∧ t.network = network ∧ t.blockHeight = -1 ∧
    t.blockTimeNormalized < oldTime)

/-- The candidate query filter of `processAllInvalidTxs` (pruning.ts lines
151-155 and 159): the invalid sentinel height, scoped to chain and
network. -/
def invalidFilter (chain network : String) (t : TxRecord) : Bool :=
  decide (t.chain = chain ∧ t.network = network ∧ t.blockHeight = -3)

/-- The stream pipeline: one in-flight candidate at a time; the stopping flag
is polled at each candidate boundary (lines 116-118 / 164-166); a candidate
failure rejects the whole pipeline, retaining the store mutations of the
candidates already processed. -/
def goCandidates (stopping : Bool) (gen : Store → String → List CoinRecord)
    (cascade : List String → Store → Store) :
    List TxRecord → Store → Store × Option PruneError
  | [], s => (s, none)
  | tx :: rest, s =>
    if stopping then (s, some PruneError.stopping)
    else
      match processCandidate cascade tx.txid (gen s tx.txid) s with
      | (s', none) => goCandidates stopping gen cascade rest s'
      | (s', some e) => (s', some e)

/-- `processOldMempoolTxs`, pruning.ts lines 100-148: select old mempool
candidates (cutoff `now - days * ONE_DAY`, line 101) and drive each through
the closure walk and `removeOldMempool`. -/
def processOldMempoolTxs (stopping dryRun : Bool) (gen : Store → String → List CoinRecord)
    (chain network : String) (now days : Int) (s : Store) : Store × Option PruneError :=
  goCandidates stopping gen (removeOldMempool dryRun chain network)
    (s.transactions.filter (candidateFilter chain network (now - days * ONE_DAY))) s

/-- `processAllInvalidTxs`, pruning.ts lines 150-195: select invalid
candidates and drive each through the closure walk and `clearInvalid`. -/
def processAllInvalidTxs (stopping dryRun : Bool) (gen : Store → String → List CoinRecord)
    (chain network : String) (s : Store) : Store × Option PruneError :=
  goCandidates stopping gen (clearInvalid dryRun)
    (s.transactions.filter (invalidFilter chain network)) s

/-- The per-pair body of `detectAndClear` (pruning.ts lines 81-82 / 89-90):
the old-mempool sweep when `args.OLD` is set, then the invalid cascade when
`args.INVALID` is set; an error from the first skips the second. -/
def processPair (stopping old invalid dryRun : Bool) (gen : Store → String → List CoinRecord)
    (now days : Int) (chain network : String) (s : Store) : Store × Option PruneError :=
  if old then
    match processOldMempoolTxs stopping dryRun gen chain network now days s with
    | (s', some e) => (s', some e)
    | (s', none) =>
      if invalid then processAllInvalidTxs stopping dryRun gen chain network s' else (s', none)
  else if invalid then processAllInvalidTxs stopping dryRun gen chain network s
  else (s, none)

/-- The `for` loop over configured chain/network pairs inside the `try` block
of `detectAndClear` (pruning.ts lines 84-91): pairs are processed in order;
a pair missing its chain or network throws ConfigurationError; a thrown
error propagates out of the loop, so the remaining pairs are not reached. -/
def runPairs (runPair : String → String → Store → Store × Option PruneError) :
    List (String × String) → Store → Store × Option PruneError
  | [], s => (s, none)
  | (chain, network) :: rest, s =>
    if chain = "" ∨ network = "" then (s, some PruneError.configuration)
    else
      match runPair chain network s with
      | (s', none) => runPairs runPair rest s'
      | (s', some e) => (s', some e)

/-- Whether a pipeline failure reaches `detectAndClear`'s catch block. The
data-integrity and stopping failures are delivered through the Transform
callback (`return cb(new Error(...))`, pruning.ts lines 117, 126, 165, 174):
the stream emits an error, the awaited promise at line 109/157 rejects, and
the catch and finally run. A pair missing chain or network throws
synchronously inside the try block (line 87) and is likewise caught. The
closure-too-large failure, however, is a plain `throw` (lines 129-130 /
177-178) inside the async transform callback, whose returned promise the
stream machinery discards: the callback never invokes `cb`, the stream never
emits an error or finishes, the awaited promise never settles, and the catch
and finally never run. -/
def errorReachesCatch : PruneError → Bool
  | PruneError.dataIntegrity _ => true
  | PruneError.closureTooLarge _ => false
  | PruneError.stopping => true
  | PruneError.configuration => true

/-- One trigger of `detectAndClear`'s body (pruning.ts lines 79-97): `some`
of the final store when the run's promise settles — the pair loop finished,
or a failure rejected the awaited promise and the catch logged it — and
`none` when a thrown closure-too-large failure leaves the awaited promise
forever pending, so the run never completes and the catch/finally (latch
release included) never execute; the store then still holds the mutations
issued up to the failure point. -/
def detectAndClearRun (stopping old invalid dryRun : Bool)
    (gen : Store → String → List CoinRecord) (now days : Int)
    (pairs : List (String × String)) (s : Store) : Option Store :=
  match runPairs (processPair stopping old invalid dryRun gen now days) pairs s with
  | (s', none) => some s'
  | (s', some e) => if errorReachesCatch e then some s' else none

/-- State of the single-flight scheduler: the `running` latch (pruning.ts
lines 45, 76-77, 96), the number of runs currently in flight, and the
store. -/
structure SchedState where
  running : Bool
  active : Nat
  store : Store
  deriving DecidableEq

/-- Scheduler events: a `detectAndClear` trigger arriving, or an in-flight
run completing (normally or with a caught error). -/
inductive SchedEvent where
  | trigger
  | finish (ok : Bool)
  deriving DecidableEq

/-- The latch protocol of `detectAndClear` (pruning.ts lines 75-77 and
95-97): a trigger while `running` returns immediately with no state change
(line 76) — nothing is queued; otherwise it sets the latch and a run begins.
`finish` is the `finally` block: the latch is cleared whether the run
succeeded or failed, and the run's store effect is applied. -/
def schedStep (runEffect : Store → Store) (s : SchedState) : SchedEvent → SchedState
  | SchedEvent.trigger =>
    if s.running then s else { s with running := true, active := s.active + 1 }
  | SchedEvent.finish _ =>
    { running := false, active := s.active - 1, store := runEffect s.store }

/-- Reachable scheduler states: start idle; triggers may arrive at any time;
a run can only finish while one is in flight. -/
inductive SchedReachable (runEffect : Store → Store) : SchedState → Prop
  | init (st : Store) : SchedReachable runEffect { running := false, active := 0, store := st }
  | trigger {s : SchedState} : SchedReachable runEffect s →
      SchedReachable runEffect (schedStep runEffect s SchedEvent.trigger)
  | finish {s : SchedState} (ok : Bool) : SchedReachable runEffect s → 0 < s.active →
      SchedReachable runEffect (schedStep runEffect s (SchedEvent.finish ok))

/-! Concrete instances used to evaluate the embedding on closed inputs. -/

/-- An expansion oracle that yields no dependent coins. -/
def genEmpty : Store → String → List CoinRecord := fun _ _ => []

/-- An unconfirmed, unspent coin minted by transaction `a`. -/
def coinU : CoinRecord :=
  { chain := "BTC", network := "mainnet", mintTxid := "a", mintHeight := -1,
    spentTxid := none, spentHeight := -2 }

/-- 51 distinct-position descendant coins, all unconfirmed. -/
def coins51 : List CoinRecord := List.replicate 51 coinU

/-- An expansion oracle that yields 51 coins for seed `a` and nothing
otherwise. -/
def gen51 : Store → String → List CoinRecord :=
  fun _ t => if t = "a" then coins51 else []

/-- A coin whose mint height is confirmed. -/
def coinConfirmed : CoinRecord :=
  { chain := "BTC", network := "mainnet", mintTxid := "x", mintHeight := 5,
    spentTxid := none, spentHeight := -2 }

/-- A yielded sequence containing one confirmed coin. -/
def coinsBad : List CoinRecord := [coinConfirmed]

/-- An expansion oracle that yields one confirmed coin for seed `a` and
nothing otherwise. -/
def genBadCoin : Store → String → List CoinRecord :=
  fun _ t => if t = "a" then coinsBad else []

/-- A yielded sequence with one unconfirmed coin spent by `b`. -/
def wCoins : List CoinRecord :=
  [{ chain := "BTC", network := "mainnet", mintTxid := "a", mintHeight := -1,
     spentTxid := some "b", spentHeight := -1 }]

/-- An invalid-sentinel transaction `a` on BTC mainnet. -/
def txA_BTC : TxRecord :=
  { chain := "BTC", network := "mainnet", txid := "a", blockHeight := -3, blockTimeNormalized := 0 }

/-- A mempool transaction with the same txid `a` on a different chain. -/
def txA_BCH : TxRecord :=
  { chain := "BCH", network := "mainnet", txid := "a", blockHeight := -1, blockTimeNormalized := 0 }

/-- A BCH coin minted by the same txid `a`. -/
def coinA_BCH : CoinRecord :=
  { chain := "BCH", network := "mainnet", mintTxid := "a", mintHeight := -1,
    spentTxid := none, spentHeight := -2 }

/-- A store holding the same txid on two chains, with a coin of the second
chain minted by it. -/
def storeCross : Store := { transactions := [txA_BTC, txA_BCH], coins := [coinA_BCH] }

/-- An old mempool transaction `a` on BTC mainnet. -/
def txOldBTC : TxRecord :=
  { chain := "BTC", network := "mainnet", txid := "a", blockHeight := -1, blockTimeNormalized := 0 }

/-- An old mempool transaction `b` on BCH mainnet. -/
def txOldBCH : TxRecord :=
  { chain := "BCH", network := "mainnet", txid := "b", blockHeight := -1, blockTimeNormalized := 0 }

/-- A store with one old mempool transaction on each of two chains. -/
def storePairs : Store := { transactions := [txOldBTC, txOldBCH], coins := [] }

/-- Two configured chain/network pairs. -/
def pairsBoth : List (String × String) := [("BTC", "mainnet"), ("BCH", "mainnet")]

/-- The empty store. -/
def wEmptyStore : Store := { transactions := [], coins := [] }

/-- A store with a single old mempool transaction. -/
def wStore9 : Store := { transactions := [txOldBTC], coins := [] }

/-- A mempool transaction used to instantiate the invalidation cascade. -/
def wTx5 : TxRecord :=
  { chain := "BTC", network := "mainnet", txid := "a", blockHeight := -1, blockTimeNormalized := 0 }

/-- A coin spent by transaction `a`, used to instantiate the cascade. -/
def wCoin5 : CoinRecord :=
  { chain := "BTC", network := "mainnet", mintTxid := "m", mintHeight := -1,
    spentTxid := some "a", spentHeight := -1 }

/-- A one-transaction, one-coin store for the invalidation cascade. -/
def wStore5 : Store := { transactions := [wTx5], coins := [wCoin5] }

/-- 50 unconfirmed coins followed by a confirmed one in position 51. -/
def coinsEdge : List CoinRecord := List.replicate 50 coinU ++ [coinConfirmed]

/-! Closure-walk lemmas. -/

theorem addUnique_mem (l : List String) (y x : String) :
    x ∈ addUnique l y ↔ x ∈ l ∨ x = y := by
  unfold addUnique
  split
  · rename_i hy
    constructor
    · exact fun h => Or.inl h
    · rintro (h | rfl)
      · exact h
      · exact hy
  · simp [List.mem_append]

theorem addUnique_nodup (l : List String) (y : String) (h : l.Nodup) :
    (addUnique l y).Nodup := by
  unfold addUnique
  split
  · exact h
  · rename_i hy
    simp [List.nodup_append, h, hy]

theorem collectSpent_mem (acc : List String) (c : CoinRecord) (x : String) :
    x ∈ collectSpent acc c ↔ x ∈ acc ∨ c.spentTxid = some x := by
  unfold collectSpent
  cases hc : c.spentTxid with
  | none => simp
  | some y =>
    rw [addUnique_mem]
    constructor
    · rintro (h | rfl)
      · exact Or.inl h
      · exact Or.inr rfl
    · rintro (h | h)
      · exact Or.inl h
      · exact Or.inr (by injection h with h; exact h.symm)

theorem collectSpent_nodup (acc : List String) (c : CoinRecord) (h : acc.Nodup) :
    (collectSpent acc c).Nodup := by
  unfold collectSpent
  cases c.spentTxid with
  | none => exact h
  | some y => exact addUnique_nodup acc y h

theorem foldl_collectSpent_mem (coins : List CoinRecord) (acc : List String) (x : String) :
    x ∈ coins.foldl collectSpent acc ↔ x ∈ acc ∨ ∃ c ∈ coins, c.spentTxid = some x := by
  induction coins generalizing acc with
  | nil => simp
  | cons c rest ih =>
    rw [List.foldl_cons, ih, collectSpent_mem]
    constructor
    · rintro ((h | h) | ⟨c', hc', h⟩)
      · exact Or.inl h
      · exact Or.inr ⟨c, List.mem_cons_self c rest, h⟩
      · exact Or.inr ⟨c', List.mem_cons_of_mem c hc', h⟩
    · rintro (h | ⟨c', hc', h⟩)
      · exact Or.inl (Or.inl h)
      · rcases List.mem_cons.mp hc' with rfl | hc'
        · exact Or.inl (Or.inr h)
        · exact Or.inr ⟨c', hc', h⟩

theorem foldl_collectSpent_nodup (coins : List CoinRecord) (acc : List String)
    (h : acc.Nodup) : (coins.foldl collectSpent acc).Nodup := by
  induction coins generalizing acc with
  | nil => exact h
  | cons c rest ih => exact ih _ (collectSpent_nodup acc c h)

theorem walkLoop_ok (coins : List CoinRecord) (acc : List String) (count : Nat)
    (hunconf : ∀ c ∈ coins, c.mintHeight < 0 ∧ c.spentHeight < 0)
    (hlen : count + coins.length ≤ 50) :
    walkLoop coins acc count = WalkResult.ok (coins.foldl collectSpent acc) := by
  induction coins generalizing acc count with
  | nil => rfl
  | cons c rest ih =>
    have hc := hunconf c (List.mem_cons_self c rest)
    have h1 : ¬(0 ≤ c.mintHeight ∨ 0 ≤ c.spentHeight) := by omega
    have h2 : ¬(count + 1 > 50) := by
      simp only [List.length_cons] at hlen
      omega
    rw [walkLoop, if_neg h1, if_neg h2, List.foldl_cons]
    exact ih (collectSpent acc c) (count + 1)
      (fun c' hc' => hunconf c' (List.mem_cons_of_mem c hc'))
      (by simp only [List.length_cons] at hlen; omega)

theorem walkLoop_dataIntegrity (coins : List CoinRecord) (acc : List String) (count : Nat)
    (hcount : count ≤ 50)
    (h : ∃ c ∈ coins.take (51 - count), 0 ≤ c.mintHeight ∨ 0 ≤ c.spentHeight) :
    ∃ m, walkLoop coins acc count = WalkResult.dataIntegrity m := by
  induction coins generalizing acc count with
  | nil => simp at h
  | cons c rest ih =>
    have htake : (51 - count) = (50 - count) + 1 := by omega
    rw [htake, List.take_succ_cons] at h
    by_cases hconf : 0 ≤ c.mintHeight ∨ 0 ≤ c.spentHeight
    · exact ⟨c.mintTxid, by rw [walkLoop, if_pos hconf]⟩
    · rcases h with ⟨c', hc', hconf'⟩
      rcases List.mem_cons.mp hc' with rfl | hc'
      · exact absurd hconf' hconf
      · have hlt : count < 50 := by
          by_contra hge
          have : count = 50 := by omega
          subst this
          simp at hc'
        have h2 : ¬(count + 1 > 50) := by omega
        rw [walkLoop, if_neg hconf, if_neg h2]
        exact ih (collectSpent acc c) (count + 1) (by omega)
          ⟨c', by rw [show 51 - (count + 1) = 50 - count by omega]; exact hc', hconf'⟩

theorem walkLoop_tooLarge (coins : List CoinRecord) (acc : List String) (count : Nat)
    (hcount : count ≤ 50) (hlen : 51 - count ≤ coins.length)
    (hunconf : ∀ c ∈ coins.take (51 - count), c.mintHeight < 0 ∧ c.spentHeight < 0) :
    walkLoop coins acc count = WalkResult.tooLarge := by
  induction coins generalizing acc count with
  | nil => simp at hlen; omega
  | cons c rest ih =>
    have htake : (51 - count) = (50 - count) + 1 := by omega
    rw [htake, List.take_succ_cons] at hunconf
    have hc := hunconf c (List.mem_cons_self _ _)
    have h1 : ¬(0 ≤ c.mintHeight ∨ 0 ≤ c.spentHeight) := by omega
    by_cases hcl : count = 50
    · subst hcl
      rw [walkLoop, if_neg h1, if_pos (by omega)]
    · have h2 : ¬(count + 1 > 50) := by omega
      rw [walkLoop, if_neg h1, if_neg h2]
      exact ih (collectSpent acc c) (count + 1) (by omega)
        (by simp only [List.length_cons] at hlen; omega)
        (fun c' hc' => hunconf c'
          (List.mem_cons_of_mem c (by rw [show 51 - (count + 1) = 50 - count by omega] at hc'; exact hc')))

/-- C1: for every seed whose closure traversal yields at most 50 coins, each
with unconfirmed (negative) mint and spent height, the computed affected set
equals {seed txid} ∪ {spentTxid of every yielded coin that has one}, has no
duplicate txids, and is exactly the list handed to the cascade operation. -/
theorem affectedSet_correct (seed : String) (coins : List CoinRecord)
    (hlen : coins.length ≤ 50)
    (hunconf : ∀ c ∈ coins, c.mintHeight < 0 ∧ c.spentHeight < 0) :
    ∃ l, computeAffectedSet seed coins = WalkResult.ok l ∧ l.Nodup ∧
      (∀ x, x ∈ l ↔ x = seed ∨ ∃ c ∈ coins, c.spentTxid = some x) ∧
      ∀ (cascade : List String → Store → Store) (s : Store),
        processCandidate cascade seed coins s = (cascade l s, none) := by
  have hwalk := walkLoop_ok coins [] 0 hunconf (by omega)
  have heq : computeAffectedSet seed coins =
      WalkResult.ok (addUnique (coins.foldl collectSpent []) seed) := by
    rw [computeAffectedSet, hwalk]
  refine ⟨addUnique (coins.foldl collectSpent []) seed, heq, ?_, ?_, ?_⟩
  · exact addUnique_nodup _ _ (foldl_collectSpent_nodup coins [] List.nodup_nil)
  · intro x
    rw [addUnique_mem, foldl_collectSpent_mem]
    simp only [List.not_mem_nil, false_or]
    exact or_comm
  · intro cascade s
    rw [processCandidate, heq]

/-- Witness for C1 at a concrete one-coin closure. -/
theorem affectedSet_correct_witness :
    (wCoins.length ≤ 50 ∧ ∀ c ∈ wCoins, c.mintHeight < 0 ∧ c.spentHeight < 0) ∧
    (∃ l, computeAffectedSet "a" wCoins = WalkResult.ok l ∧ l.Nodup ∧
      (∀ x, x ∈ l ↔ x = "a" ∨ ∃ c ∈ wCoins, c.spentTxid = some x) ∧
      ∀ (cascade : List String → Store → Store) (s : Store),
        processCandidate cascade "a" wCoins s = (cascade l s, none)) :=
  ⟨⟨by decide, by decide⟩, affectedSet_correct "a" wCoins (by decide) (by decide)⟩

/-- C2: a confirmed (non-negative) mint or spent height on any coin the
traversal yields makes the candidate abort with the data-integrity error, and
the store receives zero mutations for that candidate, whatever the cascade.
Coins past position 51 are never yielded (the ceiling aborts first), so the
yielded coins are those in `coins.take 51`. -/
theorem dataIntegrity_aborts (seed : String) (coins : List CoinRecord)
    (h : ∃ c ∈ coins.take 51, 0 ≤ c.mintHeight ∨ 0 ≤ c.spentHeight) :
    (∃ m, computeAffectedSet seed coins = WalkResult.dataIntegrity m) ∧
    ∀ (cascade : List String → Store → Store) (s : Store),
      ∃ m, processCandidate cascade seed coins s = (s, some (PruneError.dataIntegrity m)) := by
  obtain ⟨m, hm⟩ := walkLoop_dataIntegrity coins [] 0 (by omega) (by simpa using h)
  have heq : computeAffectedSet seed coins = WalkResult.dataIntegrity m := by
    rw [computeAffectedSet, hm]
  exact ⟨⟨m, heq⟩, fun cascade s => ⟨m, by rw [processCandidate, heq]⟩⟩

/-- Witness for C2 at a concrete confirmed coin. -/
theorem dataIntegrity_aborts_witness :
    (∃ c ∈ coinsBad.take 51, 0 ≤ c.mintHeight ∨ 0 ≤ c.spentHeight) ∧
    ((∃ m, computeAffectedSet "a" coinsBad = WalkResult.dataIntegrity m) ∧
    ∀ (cascade : List String → Store → Store) (s : Store),
      ∃ m, processCandidate cascade "a" coinsBad s = (s, some (PruneError.dataIntegrity m))) :=
  ⟨by decide, dataIntegrity_aborts "a" coinsBad (by decide)⟩

/-- C3: a closure traversal yielding more than 50 coins (none of the first 51
confirmed) aborts with the closure-too-large error and the store receives
zero mutations for that candidate, whatever the cascade; in particular 51
distinct descendant coins abort. -/
theorem closureTooLarge_aborts (seed : String) (coins : List CoinRecord)
    (hlen : 51 ≤ coins.length)
    (hunconf : ∀ c ∈ coins.take 51, c.mintHeight < 0 ∧ c.spentHeight < 0) :
    computeAffectedSet seed coins = WalkResult.tooLarge ∧
    ∀ (cascade : List String → Store → Store) (s : Store),
      processCandidate cascade seed coins s = (s, some (PruneError.closureTooLarge seed)) := by
  have hm := walkLoop_tooLarge coins [] 0 (by omega) (by simpa using hlen) (by simpa using hunconf)
  have heq : computeAffectedSet seed coins = WalkResult.tooLarge := by
    rw [computeAffectedSet, hm]
  exact ⟨heq, fun cascade s => by rw [processCandidate, heq]⟩

/-- Witness for C3 at a concrete 51-coin closure. -/
theorem closureTooLarge_aborts_witness :
    (51 ≤ coins51.length ∧ ∀ c ∈ coins51.take 51, c.mintHeight < 0 ∧ c.spentHeight < 0) ∧
    (computeAffectedSet "a" coins51 = WalkResult.tooLarge ∧
    ∀ (cascade : List String → Store → Store) (s : Store),
      processCandidate cascade "a" coins51 s = (s, some (PruneError.closureTooLarge "a"))) :=
  ⟨⟨by decide, by decide⟩, closureTooLarge_aborts "a" coins51 (by decide) (by decide)⟩

/-- C10: the confirmed-height check runs before the coin is counted against
the 50-coin ceiling, so a confirmed coin anywhere among the first 51 yielded
coins produces the data-integrity error, never the closure-too-large error. -/
theorem integrityCheck_precedes_ceiling (seed : String) (coins : List CoinRecord)
    (h : ∃ c ∈ coins.take 51, 0 ≤ c.mintHeight ∨ 0 ≤ c.spentHeight) :
    (∃ m, computeAffectedSet seed coins = WalkResult.dataIntegrity m) ∧
    computeAffectedSet seed coins ≠ WalkResult.tooLarge := by
  obtain ⟨m, hm⟩ := walkLoop_dataIntegrity coins [] 0 (by omega) (by simpa using h)
  have heq : computeAffectedSet seed coins = WalkResult.dataIntegrity m := by
    rw [computeAffectedSet, hm]
  exact ⟨⟨m, heq⟩, by simp [heq]⟩

/-- Witness for C10 at the edge case: the confirmed coin sits in position 51
exactly, where the ceiling would fire had the integrity check not come
first. -/
theorem integrityCheck_precedes_ceiling_witness :
    (∃ c ∈ coinsEdge.take 51, 0 ≤ c.mintHeight ∨ 0 ≤ c.spentHeight) ∧
    ((∃ m, computeAffectedSet "a" coinsEdge = WalkResult.dataIntegrity m) ∧
    computeAffectedSet "a" coinsEdge ≠ WalkResult.tooLarge) :=
  ⟨by decide, integrityCheck_precedes_ceiling "a" coinsEdge (by decide)⟩

/-- C4: with the dry-run flag enabled, both cascade operations return without
issuing any store mutation, for every affected set: the transaction and coin
stores are unchanged. -/
theorem dryRun_no_mutations :
    ∀ (txids : List String) (chain network : String) (s : Store),
      clearInvalid true txids s = s ∧ removeOldMempool true chain network txids s = s :=
  fun _ _ _ _ => ⟨rfl, rfl⟩

/-- `setConflictingTx` changes exactly the `blockHeight` field, and only on a
txid match. -/
theorem setConflictingTx_eq (txids : List String) (t : TxRecord) :
    setConflictingTx txids t =
      { t with blockHeight := if t.txid ∈ txids then SpentHeightIndicators.conflicting
                              else t.blockHeight } := by
  by_cases h : t.txid ∈ txids <;> simp [setConflictingTx, h]

/-- The composed coin updates change exactly the `spentHeight` and
`mintHeight` fields, each on its own filter match. -/
theorem coinUpdate_eq (txids : List String) (c : CoinRecord) :
    setConflictingMint txids (resetSpentCoin txids c) =
      { c with
          spentHeight := if c.spentTxid ∈ txids.map some then SpentHeightIndicators.unspent
                         else c.spentHeight,
          mintHeight := if c.mintTxid ∈ txids then SpentHeightIndicators.conflicting
                        else c.mintHeight } := by
  obtain ⟨ch, nw, mt, mh, st, sh⟩ := c
  cases st with
  | none =>
    by_cases hm : mt ∈ txids <;>
      simp [resetSpentCoin, setConflictingMint, hm, List.mem_map]
  | some x =>
    by_cases hx : x ∈ txids <;> by_cases hm : mt ∈ txids <;>
      simp [resetSpentCoin, setConflictingMint, hm, hx, List.mem_map]

/-- The spent-reset and mint-conflicting coin updates commute: they read and
write disjoint fields, so no ordering between them is observable. -/
theorem coinUpdates_commute (txids : List String) (c : CoinRecord) :
    setConflictingMint txids (resetSpentCoin txids c) =
      resetSpentCoin txids (setConflictingMint txids c) := by
  obtain ⟨ch, nw, mt, mh, st, sh⟩ := c
  cases st with
  | none =>
    by_cases hm : mt ∈ txids <;>
      simp [resetSpentCoin, setConflictingMint, hm]
  | some x =>
    by_cases hx : x ∈ txids <;> by_cases hm : mt ∈ txids <;>
      simp [resetSpentCoin, setConflictingMint, hm, hx]

/-- C5: the invalidate cascade on an affected set performs exactly its three
updates: every transaction whose txid is in the set gets `blockHeight` set to
the conflicting sentinel; every coin spent by a txid in the set gets
`spentHeight` reset to the unspent sentinel; every coin minted by a txid in
the set gets `mintHeight` set to the conflicting sentinel; no record is added
or removed and no other field is modified; and the two coin updates commute,
so no ordering among the concurrent mutations is observable. -/
theorem clearInvalid_effect (txids : List String) (s : Store) :
    ((clearInvalid false txids s).transactions.length = s.transactions.length ∧
     (clearInvalid false txids s).coins.length = s.coins.length) ∧
    (∀ (i : Nat) (t : TxRecord), s.transactions[i]? = some t →
      (clearInvalid false txids s).transactions[i]? = some
        { t with blockHeight := if t.txid ∈ txids then SpentHeightIndicators.conflicting
                                else t.blockHeight }) ∧
    (∀ (i : Nat) (c : CoinRecord), s.coins[i]? = some c →
      (clearInvalid false txids s).coins[i]? = some
        { c with
            spentHeight := if c.spentTxid ∈ txids.map some then SpentHeightIndicators.unspent
                           else c.spentHeight,
            mintHeight := if c.mintTxid ∈ txids then SpentHeightIndicators.conflicting
                          else c.mintHeight }) ∧
    (∀ cs : List CoinRecord,
      cs.map (fun c => setConflictingMint txids (resetSpentCoin txids c)) =
        cs.map (fun c => resetSpentCoin txids (setConflictingMint txids c))) := by
  refine ⟨⟨by simp [clearInvalid], by simp [clearInvalid]⟩, ?_, ?_, ?_⟩
  · intro i t ht
    have hmap : (clearInvalid false txids s).transactions =
        s.transactions.map (setConflictingTx txids) := rfl
    rw [hmap, List.getElem?_map, ht, Option.map_some', setConflictingTx_eq]
  · intro i c hc
    have hmap : (clearInvalid false txids s).coins =
        s.coins.map (fun c => setConflictingMint txids (resetSpentCoin txids c)) := rfl
    rw [hmap, List.getElem?_map, hc, Option.map_some', coinUpdate_eq]
  · intro cs
    simp only [coinUpdates_commute]

/-- Witness for C5 at a concrete one-transaction, one-coin store. -/
theorem clearInvalid_effect_witness :
    (wStore5.transactions[0]? = some wTx5 ∧ wStore5.coins[0]? = some wCoin5) ∧
    (clearInvalid false ["a"] wStore5).transactions[0]? = some
      { wTx5 with blockHeight := if wTx5.txid ∈ ["a"] then SpentHeightIndicators.conflicting
                                 else wTx5.blockHeight } ∧
    (clearInvalid false ["a"] wStore5).coins[0]? = some
      { wCoin5 with
          spentHeight := if wCoin5.spentTxid ∈ (["a"] : List String).map some then
                           SpentHeightIndicators.unspent
                         else wCoin5.spentHeight,
          mintHeight := if wCoin5.mintTxid ∈ ["a"] then SpentHeightIndicators.conflicting
                        else wCoin5.mintHeight } :=
  ⟨⟨rfl, rfl⟩, (clearInvalid_effect ["a"] wStore5).2.1 0 wTx5 rfl,
    (clearInvalid_effect ["a"] wStore5).2.2.1 0 wCoin5 rfl⟩

/-- C6 counterexample: `clearInvalid` filters on txid alone, so the invalid
cascade run for the BTC pair also rewrites the BCH mempool transaction that
shares txid `a` and the BCH coin minted by it — the claim that every issued
mutation is scoped to the candidate's chain and network is false for both
collections. -/
theorem mutation_scoping_cex :
    txA_BCH ∈ storeCross.transactions ∧ txA_BCH.chain = "BCH" ∧
    coinA_BCH ∈ storeCross.coins ∧ coinA_BCH.chain = "BCH" ∧
    (processAllInvalidTxs false false genEmpty "BTC" "mainnet" storeCross).1.transactions =
      [txA_BTC, { txA_BCH with blockHeight := -3 }] ∧
    { txA_BCH with blockHeight := -3 } ≠ txA_BCH ∧
    (processAllInvalidTxs false false genEmpty "BTC" "mainnet" storeCross).1.coins =
      [{ coinA_BCH with mintHeight := -3 }] ∧
    { coinA_BCH with mintHeight := -3 } ≠ coinA_BCH := by decide

/-- C6 amended: the old-mempool delete cascade is chain/network scoped — a
record of a different chain/network pair always survives it — but the
invalidate cascade is scoped by txid alone: it rewrites every transaction
whose txid is in the set and every coin minted (or spent) by a txid in the
set, whatever that record's chain and network. -/
theorem mutation_scoping_amended (chain network : String) (txids : List String) (s : Store) :
    (∀ t ∈ s.transactions, (t.chain ≠ chain ∨ t.network ≠ network) →
      t ∈ (removeOldMempool false chain network txids s).transactions) ∧
    (∀ c ∈ s.coins, (c.chain ≠ chain ∨ c.network ≠ network) →
      c ∈ (removeOldMempool false chain network txids s).coins) ∧
    (∀ t ∈ s.transactions, t.txid ∈ txids →
      { t with blockHeight := SpentHeightIndicators.conflicting } ∈
        (clearInvalid false txids s).transactions) ∧
    (∀ c ∈ s.coins, c.mintTxid ∈ txids →
      { c with
          spentHeight := if c.spentTxid ∈ txids.map some then SpentHeightIndicators.unspent
                         else c.spentHeight,
          mintHeight := SpentHeightIndicators.conflicting } ∈
        (clearInvalid false txids s).coins) := by
  refine ⟨?_, ?_, ?_, ?_⟩
  · intro t ht hne
    have hno : ¬(t.chain = chain ∧ t.network = network ∧ t.txid ∈ txids ∧ t.blockHeight = -1) := by
      rcases hne with h | h
      · exact fun hcontra => h hcontra.1
      · exact fun hcontra => h hcontra.2.1
    simp only [removeOldMempool, Bool.false_eq_true, if_false, List.mem_filter, ht, true_and,
      Bool.not_eq_eq_eq_not, Bool.not_true, decide_eq_false_iff_not]
    exact hno
  · intro c hc hne
    have hno : ¬(c.chain = chain ∧ c.network = network ∧ c.mintTxid ∈ txids ∧ c.mintHeight = -1) := by
      rcases hne with h | h
      · exact fun hcontra => h hcontra.1
      · exact fun hcontra => h hcontra.2.1
    simp only [removeOldMempool, Bool.false_eq_true, if_false, List.mem_filter, hc, true_and,
      Bool.not_eq_eq_eq_not, Bool.not_true, decide_eq_false_iff_not]
    exact hno
  · intro t ht htx
    have : setConflictingTx txids t = { t with blockHeight := SpentHeightIndicators.conflicting } := by
      simp [setConflictingTx, htx]
    exact this ▸ List.mem_map_of_mem (setConflictingTx txids) ht
  · intro c hc hmint
    have himg : setConflictingMint txids (resetSpentCoin txids c) =
        { c with
            spentHeight := if c.spentTxid ∈ txids.map some then SpentHeightIndicators.unspent
                           else c.spentHeight,
            mintHeight := SpentHeightIndicators.conflicting } := by
      rw [coinUpdate_eq, if_pos hmint]
    exact himg ▸
      List.mem_map_of_mem (fun c => setConflictingMint txids (resetSpentCoin txids c)) hc

/-- Witness for the amended C6 at the cross-chain store, exercising the
transaction and the coin halves. -/
theorem mutation_scoping_amended_witness :
    (txA_BCH ∈ storeCross.transactions ∧ txA_BCH.chain ≠ "BTC" ∧ txA_BCH.txid ∈ ["a"] ∧
      coinA_BCH ∈ storeCross.coins ∧ coinA_BCH.mintTxid ∈ ["a"]) ∧
    txA_BCH ∈ (removeOldMempool false "BTC" "mainnet" ["a"] storeCross).transactions ∧
    { txA_BCH with blockHeight := SpentHeightIndicators.conflicting } ∈
      (clearInvalid false ["a"] storeCross).transactions ∧
    { coinA_BCH with
        spentHeight := if coinA_BCH.spentTxid ∈ (["a"] : List String).map some then
                         SpentHeightIndicators.unspent
                       else coinA_BCH.spentHeight,
        mintHeight := SpentHeightIndicators.conflicting } ∈
      (clearInvalid false ["a"] storeCross).coins :=
  ⟨⟨by decide, by decide, by decide, by decide, by decide⟩,
    (mutation_scoping_amended "BTC" "mainnet" ["a"] storeCross).1 txA_BCH (by decide)
      (Or.inl (by decide)),
    (mutation_scoping_amended "BTC" "mainnet" ["a"] storeCross).2.2.1 txA_BCH (by decide)
      (by decide),
    (mutation_scoping_amended "BTC" "mainnet" ["a"] storeCross).2.2.2 coinA_BCH (by decide)
      (by decide)⟩

/-- C7 counterexample: a 51-coin closure on the first pair is a `throw`
inside the async transform callback, so the awaited pipeline promise never
settles and the run never reaches its catch — it is not caught or logged
(result `none`), future triggers stay dropped because the `finally` latch
release never runs, and the subsequent BCH pair is not processed in that run,
although processing it alone would delete its old transaction `b`. Every
part of the claim fails at this input. -/
theorem pair_fault_cex :
    detectAndClearRun false true false false gen51 (8 * ONE_DAY) 7 pairsBoth storePairs =
      none ∧
    txOldBCH ∈ storePairs.transactions ∧
    (processOldMempoolTxs false false gen51 "BCH" "mainnet" (8 * ONE_DAY) 7
        storePairs).1.transactions = [txOldBTC] := by decide

/-- C7 amended: a failure on one pair always ends the run — the remaining
pairs are skipped (the result does not depend on them) — and what happens
next depends on how the failure is delivered: a callback-delivered failure
(data-integrity, stopping) or the synchronous configuration throw rejects
the awaited promise, is caught and logged at the run level, and the run's
promise resolves, leaving future scheduled runs unaffected; the thrown
closure-too-large failure never reaches the catch — the awaited promise
never settles, the run never completes, and the `finally` latch release
never executes, so future scheduled triggers are dropped. -/
theorem pair_fault_amended (stopping old invalid dryRun : Bool)
    (gen : Store → String → List CoinRecord) (now days : Int)
    (chain network : String) (rest : List (String × String)) (s s' : Store) (e : PruneError)
    (hc : chain ≠ "") (hn : network ≠ "")
    (h : processPair stopping old invalid dryRun gen now days chain network s = (s', some e)) :
    detectAndClearRun stopping old invalid dryRun gen now days ((chain, network) :: rest) s =
      (if errorReachesCatch e then some s' else none) := by
  have hrun : runPairs (processPair stopping old invalid dryRun gen now days)
      ((chain, network) :: rest) s = (s', some e) := by
    rw [runPairs, if_neg (by simp [hc, hn]), h]
  unfold detectAndClearRun
  rw [hrun]

/-- Witness for the amended C7 on both delivery paths: a data-integrity
failure on the BTC pair settles the run with the store so far and skips the
BCH pair; a closure-too-large failure leaves the run forever pending. -/
theorem pair_fault_amended_witness :
    (("BTC" : String) ≠ "" ∧ ("mainnet" : String) ≠ "" ∧
      processPair false true false false genBadCoin (8 * ONE_DAY) 7 "BTC" "mainnet" storePairs =
        (storePairs, some (PruneError.dataIntegrity "x")) ∧
      processPair false true false false gen51 (8 * ONE_DAY) 7 "BTC" "mainnet" storePairs =
        (storePairs, some (PruneError.closureTooLarge "a"))) ∧
    detectAndClearRun false true false false genBadCoin (8 * ONE_DAY) 7 pairsBoth storePairs =
      (if errorReachesCatch (PruneError.dataIntegrity "x") then some storePairs else none) ∧
    detectAndClearRun false true false false gen51 (8 * ONE_DAY) 7 pairsBoth storePairs =
      (if errorReachesCatch (PruneError.closureTooLarge "a") then some storePairs else none) :=
  ⟨⟨by decide, by decide, by decide, by decide⟩,
    pair_fault_amended false true false false genBadCoin (8 * ONE_DAY) 7 "BTC" "mainnet"
      [("BCH", "mainnet")] storePairs storePairs (PruneError.dataIntegrity "x")
      (by decide) (by decide) (by decide),
    pair_fault_amended false true false false gen51 (8 * ONE_DAY) 7 "BTC" "mainnet"
      [("BCH", "mainnet")] storePairs storePairs (PruneError.closureTooLarge "a")
      (by decide) (by decide) (by decide)⟩

/-- In every reachable scheduler state the number of in-flight runs is
exactly the latch value. -/
theorem schedReachable_invariant (f : Store → Store) (s : SchedState)
    (h : SchedReachable f s) : s.active = if s.running then 1 else 0 := by
  induction h with
  | init st => rfl
  | @trigger s' h ih =>
    by_cases hr : s'.running <;> simp [schedStep, hr] at ih ⊢ <;> omega
  | @finish s' ok h hpos ih =>
    by_cases hr : s'.running <;> simp [schedStep, hr] at ih ⊢ <;> omega

/-- C8: the `running` latch makes `detectAndClear` single-flight: a trigger
arriving while a run is active returns with the scheduler state (store
included) unchanged — nothing is queued or retried; at most one run is in
flight in any reachable state; and the `finally` block clears the latch on
normal and failed completion alike, so the next trigger starts a run. -/
theorem detectAndClear_single_flight (f : Store → Store) :
    (∀ s : SchedState, s.running = true → schedStep f s SchedEvent.trigger = s) ∧
    (∀ s : SchedState, SchedReachable f s → s.active ≤ 1) ∧
    (∀ (s : SchedState) (ok : Bool), (schedStep f s (SchedEvent.finish ok)).running = false) ∧
    (∀ (s : SchedState) (ok : Bool),
      (schedStep f (schedStep f s (SchedEvent.finish ok)) SchedEvent.trigger).running = true) := by
  refine ⟨?_, ?_, ?_, ?_⟩
  · intro s hs
    simp [schedStep, hs]
  · intro s hreach
    have hinv := schedReachable_invariant f s hreach
    by_cases hr : s.running <;> simp [hr] at hinv <;> omega
  · intro s ok
    rfl
  · intro s ok
    rfl

/-- Witness for C8: a trigger in a running state is a no-op, and that state
(reached by one trigger from idle) has one active run. -/
theorem detectAndClear_single_flight_witness :
    (schedStep (fun st => st) { running := true, active := 1, store := wEmptyStore }
        SchedEvent.trigger = { running := true, active := 1, store := wEmptyStore }) ∧
    ({ running := true, active := 1, store := wEmptyStore } : SchedState).active ≤ 1 :=
  ⟨(detectAndClear_single_flight (fun st => st)).1 _ rfl,
    (detectAndClear_single_flight (fun st => st)).2.1 _
      (SchedReachable.trigger (SchedReachable.init wEmptyStore))⟩

/-- The affected set always contains the seed txid. -/
theorem computeAffectedSet_seed_mem (seed : String) (coins : List CoinRecord)
    (l : List String) (h : computeAffectedSet seed coins = WalkResult.ok l) : seed ∈ l := by
  unfold computeAffectedSet at h
  cases hw : walkLoop coins [] 0 with
  | ok acc =>
    rw [hw] at h
    injection h with h
    subst h
    exact (addUnique_mem _ _ _).mpr (Or.inr rfl)
  | dataIntegrity m =>
    rw [hw] at h
    cases h
  | tooLarge =>
    rw [hw] at h
    cases h

/-- The old-mempool delete only removes records. -/
theorem removeOldMempool_subset (chain network : String) (txids : List String) (s : Store)
    (t : TxRecord) (h : t ∈ (removeOldMempool false chain network txids s).transactions) :
    t ∈ s.transactions :=
  (List.mem_filter.mp h).1

/-- A transaction surviving the old-mempool delete does not match its filter
document. -/
theorem removeOldMempool_deletes (chain network : String) (txids : List String) (s : Store)
    (t : TxRecord) (h : t ∈ (removeOldMempool false chain network txids s).transactions) :
    ¬(t.chain = chain ∧ t.network = network ∧ t.txid ∈ txids ∧ t.blockHeight = -1) := by
  have hmem := (List.mem_filter.mp h).2
  simp only [Bool.not_eq_true', decide_eq_false_iff_not] at hmem
  exact hmem

/-- A successful pipeline run over a candidate list only deletes records, and
afterwards no surviving transaction still matches any processed candidate's
delete document: each candidate's own txid was in its affected set, so the
candidate's mempool record is gone. -/
theorem goCandidates_removes (gen : Store → String → List CoinRecord)
    (chain network : String) (cs : List TxRecord) (s s₁ : Store)
    (h : goCandidates false gen (removeOldMempool false chain network) cs s = (s₁, none)) :
    (∀ t ∈ s₁.transactions, t ∈ s.transactions) ∧
    (∀ tx ∈ cs, ∀ t ∈ s₁.transactions,
      ¬(t.chain = chain ∧ t.network = network ∧ t.txid = tx.txid ∧ t.blockHeight = -1)) := by
  induction cs generalizing s with
  | nil =>
    rw [goCandidates] at h
    injection h with h1 h2
    subst h1
    exact ⟨fun t ht => ht, fun tx htx => absurd htx (List.not_mem_nil tx)⟩
  | cons tx rest ih =>
    rw [goCandidates, if_neg (by simp)] at h
    cases hw : computeAffectedSet tx.txid (gen s tx.txid) with
    | ok l =>
      have hpc : processCandidate (removeOldMempool false chain network) tx.txid
          (gen s tx.txid) s = (removeOldMempool false chain network l s, none) := by
        rw [processCandidate, hw]
      rw [hpc] at h
      obtain ⟨hsub, hrest⟩ := ih _ h
      have hseed : tx.txid ∈ l := computeAffectedSet_seed_mem _ _ _ hw
      refine ⟨fun t ht => removeOldMempool_subset _ _ _ _ _ (hsub t ht), ?_⟩
      intro tx' htx' t ht
      rcases List.mem_cons.mp htx' with heq | htx'
      · subst heq
        rintro ⟨hch, hnw, htxid, hbh⟩
        exact removeOldMempool_deletes _ _ _ _ _ (hsub t ht) ⟨hch, hnw, htxid ▸ hseed, hbh⟩
      · exact hrest tx' htx' t ht
    | dataIntegrity m =>
      have hpc : processCandidate (removeOldMempool false chain network) tx.txid
          (gen s tx.txid) s = (s, some (PruneError.dataIntegrity m)) := by
        rw [processCandidate, hw]
      rw [hpc] at h
      have h' : (s, some (PruneError.dataIntegrity m)) = ((s₁, none) : Store × Option PruneError) := h
      injection h' with h1 h2
      cases h2
    | tooLarge =>
      have hpc : processCandidate (removeOldMempool false chain network) tx.txid
          (gen s tx.txid) s = (s, some (PruneError.closureTooLarge tx.txid)) := by
        rw [processCandidate, hw]
      rw [hpc] at h
      have h' : (s, some (PruneError.closureTooLarge tx.txid)) =
          ((s₁, none) : Store × Option PruneError) := h
      injection h' with h1 h2
      cases h2

/-- C9: old-mempool removal is idempotent: a second run, on the store a
completed run produced and with the same cutoff, finds no candidates, deletes
zero transaction and zero coin records, and returns the store unchanged —
whatever coin sequences either run's expansion oracle yields. -/
theorem oldMempool_removal_idempotent (gen gen' : Store → String → List CoinRecord)
    (chain network : String) (now days : Int) (s s₁ : Store)
    (h : processOldMempoolTxs false false gen chain network now days s = (s₁, none)) :
    processOldMempoolTxs false false gen' chain network now days s₁ = (s₁, none) := by
  unfold processOldMempoolTxs at h ⊢
  obtain ⟨hsub, hcand⟩ := goCandidates_removes gen chain network _ s s₁ h
  have hempty : s₁.transactions.filter
      (candidateFilter chain network (now - days * ONE_DAY)) = [] := by
    rw [List.filter_eq_nil_iff]
    intro t ht hfilter
    have hf : t.chain = chain ∧ t.network = network ∧ t.blockHeight = -1 ∧
        t.blockTimeNormalized < now - days * ONE_DAY := of_decide_eq_true hfilter
    have htc : t ∈ s.transactions.filter
        (candidateFilter chain network (now - days * ONE_DAY)) :=
      List.mem_filter.mpr ⟨hsub t ht, hfilter⟩
    exact hcand t htc t ht ⟨hf.1, hf.2.1, rfl, hf.2.2.1⟩
  rw [hempty]
  rfl

/-- Witness for C9: a one-transaction store is emptied by the first run and
the second run keeps the empty store with no deletions. -/
theorem oldMempool_removal_idempotent_witness :
    processOldMempoolTxs false false genEmpty "BTC" "mainnet" (8 * ONE_DAY) 7 wStore9 =
      (wEmptyStore, none) ∧
    processOldMempoolTxs false false genEmpty "BTC" "mainnet" (8 * ONE_DAY) 7 wEmptyStore =
      (wEmptyStore, none) :=
  ⟨by decide,
    oldMempool_removal_idempotent genEmpty genEmpty "BTC" "mainnet" (8 * ONE_DAY) 7
      wStore9 wEmptyStore (by decide)⟩
